import Mathlib

/-!
Verification of the Amber-to-Tesla tariff conversion engine
(`custom_components/tesla_amber_sync/tariff_converter.py`).

The development shallowly embeds the converter:

* timestamps are modelled as minutes since an arbitrary epoch (`Int`);
  `fromisoformat` success/failure is modelled by `Option Int` on the point
  (`none` means the parse raised, i.e. a malformed `nemTime`);
* prices are exact rationals (`ℚ`); Python's `round(x, 4)` is modelled as
  round-half-to-even at 4 decimal places on `ℚ` (binary floating-point noise
  is abstracted away);
* the dictionaries `general_lookup` / `feedin_lookup` are modelled as
  functions from the key triple `(date, hour, minute)` to the list of
  accumulated prices (the empty list plays the role of "key absent": the
  Python code only ever inserts a key together with an appended price, so
  dict membership coincides with a non-empty list);
* `general_prices` / `feedin_prices` are modelled as insertion-ordered
  association lists with string keys, mirroring Python dicts;
* the wall-clock value that `datetime.now(aus_tz)` returns inside
  `_build_rolling_24h_tariff` is passed in explicitly as a `Now` value, so
  that the internal clock read is visible as a parameter of the embedding.
-/

namespace TeslaAmberSync

/-- Python's `round` to an integer: round half to even (banker's rounding). -/
def pyRoundInt (q : ℚ) : ℤ :=
  let f := Int.floor q
  let r := q - f
  if r < 1/2 then f
  else if 1/2 < r then f + 1
  else if f % 2 = 0 then f else f + 1

/-- Embeds `_round_price`: `round(price, 4)` (trailing-zero removal is a
display concern and has no effect on the rational value). -/
def _round_price (price : ℚ) : ℚ :=
  pyRoundInt (price * 10000) / 10000

/-- Embeds `sum(prices) / len(prices)` on a bucket. -/
def avgList (prices : List ℚ) : ℚ :=
  prices.sum / (prices.length : ℚ)

/-- Python's two-argument `max` (written with an explicit comparison so the
definition evaluates by reduction; agrees with `max`, see `pymax_eq`). -/
def pymax (a b : ℚ) : ℚ := if a ≤ b then b else a

/-- Python's two-argument `min` (agrees with `min`, see `pymin_eq`). -/
def pymin (a b : ℚ) : ℚ := if a ≤ b then a else b

/-- Embeds the possible shapes of the `advancedPrice` field: absent (`None`),
a bare number (legacy), a variant dictionary, or any other Python value
(which the code reports as an invalid format). -/
inductive AdvancedPrice where
  | missing
  | num (value : ℚ)
  | dict (entries : List (String × ℚ))
  | other
deriving DecidableEq

/-- Python truthiness of the `advancedPrice` value, as used by
`if not advanced_price:` — `None`, `0`/`0.0` and the empty dict are falsy. -/
def AdvancedPrice.falsy : AdvancedPrice → Bool
  | .missing => true
  | .num v => v == 0
  | .dict m => m.isEmpty
  | .other => false

/-- Lookup in a string-keyed association list (first binding wins), the model
of Python dict indexing / the `in` test on `advancedPrice` and on the period
maps. -/
def dGet? : List (String × ℚ) → String → Option ℚ
  | [], _ => none
  | e :: t, k => if e.1 == k then some e.2 else dGet? t k

/-- One Amber forecast point, with exactly the fields the converter reads.
`nemTime` is the parsed end-of-interval timestamp in minutes since an epoch,
in the timestamp's own timezone; `none` models a `nemTime` string that
`datetime.fromisoformat` rejects. `duration` carries the value of
`point.get("duration", 30)` and `perKwh` the value of
`point.get("perKwh", 0)`. -/
structure AmberPoint where
  nemTime : Option ℤ
  channelType : String
  duration : ℤ
  type : String
  advancedPrice : AdvancedPrice
  perKwh : ℚ
deriving DecidableEq

/-- Key of the price lookups: `(date_str, hour, start_minute_bucket)`, with
the ISO date string represented by the day index. -/
abbrev LKey := ℤ × ℕ × ℕ

/-- Embeds the bucketing of an interval-start instant (minutes since epoch):
`date_str = interval_start.date().isoformat()`, `hour = interval_start.hour`,
`start_minute_bucket = 0 if interval_start.minute < 30 else 30`. -/
def bucketKey (start : ℤ) : LKey :=
  (Int.fdiv start 1440,
   ((Int.emod start 1440).toNat) / 60,
   if (Int.emod start 60).toNat < 30 then 0 else 30)

/-- Embeds the price-selection block of the per-point loop: the returned
value is `per_kwh_cents`; `none` models a raised `ValueError` (missing or
falsy `advancedPrice`, missing forecast variant key, or invalid format). -/
def selectCents (forecast_type : String) (p : AmberPoint) : Option ℚ :=
  if p.type = "ForecastInterval" then
    if p.advancedPrice.falsy then none
    else
      match p.advancedPrice with
      | .dict m => dGet? m forecast_type
      | .num v => some v
      | _ => none
  else
    some p.perKwh

/-- Outcome of the per-point loop body: a raised-and-caught exception
(`err`, the `except ... continue` path), a point whose channel is neither
`general` nor `feedIn` (`noop`), or an appended contribution to one of the
two lookups. -/
inductive PointOutcome where
  | err
  | noop
  | toGeneral (key : LKey) (dollars : ℚ)
  | toFeedIn (key : LKey) (dollars : ℚ)
deriving DecidableEq

/-- Embeds one iteration of the per-point loop of
`convert_amber_to_tesla_tariff`: parse the timestamp, select the cents
price, negate for the `feedIn` channel, convert to rounded dollars, bucket
by the interval start `nemTime - duration`, and route to the matching
lookup. -/
def processPoint (forecast_type : String) (p : AmberPoint) : PointOutcome :=
  match p.nemTime with
  | none => .err
  | some t =>
    match selectCents forecast_type p with
    | none => .err
    | some cents0 =>
      let cents := if p.channelType = "feedIn" then -cents0 else cents0
      let dollars := _round_price (cents / 100)
      let key := bucketKey (t - p.duration)
      if p.channelType = "general" then .toGeneral key dollars
      else if p.channelType = "feedIn" then .toFeedIn key dollars
      else .noop

/-- The price lookups, modelled as total functions into lists of prices; a
key is "in the dict" exactly when its list is non-empty. -/
abbrev Lookup := LKey → List ℚ

/-- Appending one price to one bucket of a lookup. -/
def addPrice (lk : Lookup) (k : LKey) (v : ℚ) : Lookup :=
  fun k' => if k' = k then lk k' ++ [v] else lk k'

/-- Folding one point into the pair `(general_lookup, feedin_lookup)`. -/
def applyPoint (forecast_type : String) (acc : Lookup × Lookup)
    (p : AmberPoint) : Lookup × Lookup :=
  match processPoint forecast_type p with
  | .err => acc
  | .noop => acc
  | .toGeneral k v => (addPrice acc.1 k v, acc.2)
  | .toFeedIn k v => (acc.1, addPrice acc.2 k v)

/-- Embeds the whole per-point loop: builds `(general_lookup, feedin_lookup)`
from the forecast batch. -/
def buildLookups (forecast_type : String) (pts : List AmberPoint) :
    Lookup × Lookup :=
  pts.foldl (applyPoint forecast_type) (fun _ => [], fun _ => [])

/-- The wall-clock value returned by `datetime.now(aus_tz)` inside
`_build_rolling_24h_tariff`: calendar date (day index), hour and minute.
Passing it explicitly makes the internal clock read a visible parameter of
the embedding. -/
structure Now where
  date : ℤ
  hour : ℕ
  minute : ℕ
deriving DecidableEq

/-- Embeds `current_minute = 0 if now.minute < 30 else 30`. -/
def current_minute (now : Now) : ℕ :=
  if now.minute < 30 then 0 else 30

/-- Embeds the date-selection branch of the slot loop: a slot strictly
earlier than `(current_hour, current_minute)` has passed today and takes
tomorrow's date, every other slot takes today's. -/
def dateToUse (now : Now) (hour minute : ℕ) : ℤ :=
  if hour < now.hour ∨ (hour = now.hour ∧ minute < current_minute now) then
    now.date + 1
  else
    now.date

/-- Two-digit zero padding, as in the format specifier `{hour:02d}`. -/
def pad2 (n : ℕ) : String :=
  if n < 10 then "0" ++ toString n else toString n

/-- Embeds `period_key = f"PERIOD_\x7bhour:02d\x7d_\x7bminute:02d\x7d"`. -/
def periodKey (hour minute : ℕ) : String :=
  "PERIOD_" ++ pad2 hour ++ "_" ++ pad2 minute

/-- Insertion-ordered association list modelling the Python dicts
`general_prices` / `feedin_prices`. -/
abbrev PriceDict := List (String × ℚ)

/-- Python dict assignment `d[k] = v`: overwrite an existing binding in
place, otherwise append a new one. -/
def dSet : PriceDict → String → ℚ → PriceDict
  | [], k, v => [(k, v)]
  | e :: t, k, v => if e.1 == k then (k, v) :: t else e :: dSet t k v

/-- The 48 `(hour, minute)` iterations of
`for hour in range(24): for minute in [0, 30]:`. -/
def allSlots : List (ℕ × ℕ) :=
  (List.range 24).flatMap (fun hour => [(hour, 0), (hour, 30)])

/-- Embeds one iteration of the slot loop of `_build_rolling_24h_tariff`:
compute the buy entry (average, round, clamp to 0, with same-day fallback
and 0 default), then the sell entry (same, additionally capped by the buy
entry of the same period when present). -/
def stepSlot (general_lookup feedin_lookup : Lookup) (now : Now)
    (acc : PriceDict × PriceDict) (hm : ℕ × ℕ) : PriceDict × PriceDict :=
  let hour := hm.1
  let minute := hm.2
  let period_key := periodKey hour minute
  let date_to_use := dateToUse now hour minute
  let lookup_key : LKey := (date_to_use, hour, minute)
  let fallback_key : LKey := (now.date, hour, minute)
  let general_prices :=
    if general_lookup lookup_key ≠ [] then
      let buy_price := _round_price (avgList (general_lookup lookup_key))
      dSet acc.1 period_key (pymax 0 buy_price)
    else if general_lookup fallback_key ≠ [] then
      dSet acc.1 period_key
        (pymax 0 (_round_price (avgList (general_lookup fallback_key))))
    else
      dSet acc.1 period_key 0
  let feedin_prices :=
    if feedin_lookup lookup_key ≠ [] then
      let sell_price := _round_price (avgList (feedin_lookup lookup_key))
      let sell_price := pymax 0 sell_price
      let sell_price :=
        match dGet? general_prices period_key with
        | some buy => pymin sell_price buy
        | none => sell_price
      dSet acc.2 period_key sell_price
    else if feedin_lookup fallback_key ≠ [] then
      let sell_price :=
        pymax 0 (_round_price (avgList (feedin_lookup fallback_key)))
      let sell_price :=
        match dGet? general_prices period_key with
        | some buy => pymin sell_price buy
        | none => sell_price
      dSet acc.2 period_key sell_price
    else
      dSet acc.2 period_key 0
  (general_prices, feedin_prices)

/-- Embeds `_build_rolling_24h_tariff`: iterate the slot loop over all 48
half-hour periods, returning `(general_prices, feedin_prices)`. -/
def _build_rolling_24h_tariff (general_lookup feedin_lookup : Lookup)
    (now : Now) : PriceDict × PriceDict :=
  allSlots.foldl (stepSlot general_lookup feedin_lookup now) ([], [])

/-- Closed form of the buy entry a slot receives (proved equal to the
builder's behaviour in `build_rolling_eq`). -/
def buySlot (general_lookup : Lookup) (now : Now) (hour minute : ℕ) : ℚ :=
  let lookup_key : LKey := (dateToUse now hour minute, hour, minute)
  let fallback_key : LKey := (now.date, hour, minute)
  if general_lookup lookup_key ≠ [] then
    pymax 0 (_round_price (avgList (general_lookup lookup_key)))
  else if general_lookup fallback_key ≠ [] then
    pymax 0 (_round_price (avgList (general_lookup fallback_key)))
  else
    0

/-- Closed form of the sell entry a slot receives (proved equal to the
builder's behaviour in `build_rolling_eq`). -/
def sellSlot (general_lookup feedin_lookup : Lookup) (now : Now)
    (hour minute : ℕ) : ℚ :=
  let buy := buySlot general_lookup now hour minute
  let lookup_key : LKey := (dateToUse now hour minute, hour, minute)
  let fallback_key : LKey := (now.date, hour, minute)
  if feedin_lookup lookup_key ≠ [] then
    pymin (pymax 0 (_round_price (avgList (feedin_lookup lookup_key)))) buy
  else if feedin_lookup fallback_key ≠ [] then
    pymin (pymax 0 (_round_price (avgList (feedin_lookup fallback_key)))) buy
  else
    0

/-- The output document, restricted to the fields the specification's claims
concern; the remaining fields of `_build_tariff_structure` are constants or
synthesized scaffolding (seasons, zeroed demand charges, TOU period
definitions) that no claim mentions. `buyRates` is
`energy_charges.Summer.rates` and `sellRates` is
`sell_tariff.energy_charges.Summer.rates`. -/
structure TeslaTariff where
  version : ℕ
  code : String
  name : String
  utility : String
  currency : String
  buyRates : PriceDict
  sellRates : PriceDict
deriving DecidableEq

/-- Embeds `_build_tariff_structure` (restricted to the claim-relevant
fields). -/
def _build_tariff_structure (general_prices feedin_prices : PriceDict) :
    TeslaTariff :=
  { version := 1
    code := "TESLA_SYNC:AMBER:AMBER"
    name := "Amber Electric (Tesla Sync)"
    utility := "Amber Electric"
    currency := "AUD"
    buyRates := general_prices
    sellRates := feedin_prices }

/-- Embeds `convert_amber_to_tesla_tariff`: `None` on an empty batch,
otherwise build the lookups, the rolling 48-slot maps and the tariff
structure. `clockNow` is the value `datetime.now(aus_tz)` returns inside
`_build_rolling_24h_tariff` (the timezone resolution only decides which
clock is read, so it is absorbed into that value); the unused
`tesla_energy_site_id` parameter is dropped. -/
def convert_amber_to_tesla_tariff (forecast_data : List AmberPoint)
    (forecast_type : String) (clockNow : Now) : Option TeslaTariff :=
  if forecast_data = [] then
    none
  else
    let lookups := buildLookups forecast_type forecast_data
    let prices := _build_rolling_24h_tariff lookups.1 lookups.2 clockNow
    some (_build_tariff_structure prices.1 prices.2)

/-- Concrete lookup used to exercise `c1_slot_invariants`: one buy sample
and two sell samples (one negative) in the 17:30 bucket of day 0. -/
def c1gl : Lookup := fun k => if k = (0, 17, 30) then [1] else []

/-- Concrete feed-in lookup companion to `c1gl`. -/
def c1fl : Lookup := fun k => if k = (0, 17, 30) then [-2, 4] else []

/-- Concrete batch used to exercise `c2_completeness`: one well-formed
actual-interval point. -/
def c2pts : List AmberPoint :=
  [⟨some 1080, "general", 30, "ActualInterval", .missing, 40⟩]

/-- Fallback tariff value used to name the concrete conversion result. -/
def emptyTariff : TeslaTariff := ⟨0, "", "", "", "", [], []⟩

/-- The concrete tariff produced from `c2pts`. -/
def c2t : TeslaTariff :=
  (convert_amber_to_tesla_tariff c2pts "predicted" ⟨0, 0, 0⟩).getD emptyTariff

/-- Synthetic buy lookup for the rolling-window instance: every bucket of
day 1 (tomorrow) holds the price 2, every bucket of day 0 (today) holds 3. -/
def c3gl : Lookup := fun k => if k.1 = 1 then [2] else if k.1 = 0 then [3] else []

/-- Empty feed-in lookup companion to `c3gl`. -/
def c3fl : Lookup := fun _ => []

/-- A point ending 18:00 on day 0 with duration 5 minutes (actual interval,
buy channel, 40 cents). -/
def c4pt5 : AmberPoint := ⟨some 1080, "general", 5, "ActualInterval", .missing, 40⟩

/-- The same point with duration 30 minutes. -/
def c4pt30 : AmberPoint := ⟨some 1080, "general", 30, "ActualInterval", .missing, 40⟩

/-- A ForecastInterval point whose variant map has a key, but not the
requested one (`predicted`). -/
def c5bad : AmberPoint :=
  ⟨some 30, "general", 30, "ForecastInterval", .dict [("low", 10)], 99⟩

/-- A well-formed actual-interval companion point. -/
def c5good : AmberPoint := ⟨some 30, "general", 30, "ActualInterval", .missing, 10⟩

/-- A point whose `nemTime` fails to parse, so its processing always
raises. -/
def c6bad : AmberPoint := ⟨none, "general", 30, "ActualInterval", .missing, 10⟩

/-- The 48 zero-priced entries the builder emits from empty lookups. -/
def zeroRates : PriceDict := allSlots.map (fun x => (periodKey x.1 x.2, (0 : ℚ)))

/-- Buy lookup with a single negative sample in the 05:00 bucket of
day 0. -/
def c7gl : Lookup := fun k => if k = (0, 5, 0) then [-1] else []

/-- Empty feed-in lookup companion to `c7gl`. -/
def c7fl : Lookup := fun _ => []

/-- Buy lookup holding the specification's six averaging samples in the
03:00 bucket of day 0. -/
def c7wgl : Lookup :=
  fun k => if k = (0, 3, 0) then [1/10, 12/100, 11/100, 13/100, 9/100, 15/100]
    else []

/-- A batch with distinct buy prices for the 00:00 bucket of day 0 (10c)
and of day 1 (20c). -/
def c8pts : List AmberPoint :=
  [⟨some 30, "general", 30, "ActualInterval", .missing, 10⟩,
   ⟨some (1440 + 30), "general", 30, "ActualInterval", .missing, 20⟩]

/-- A point with a valid timestamp and a non-positive (zero) duration. -/
def c9pt : AmberPoint := ⟨some 1080, "general", 0, "ActualInterval", .missing, 40⟩

/-- A ForecastInterval point carrying a legitimate zero-cent forecast price
in the legacy numeric shape. -/
def c10pt : AmberPoint := ⟨some 60, "general", 30, "ForecastInterval", .num 0, 5⟩

set_option maxRecDepth 200000
set_option maxHeartbeats 1600000

/-- The explicit comparison form of `pymax` coincides with `max`. -/
theorem pymax_eq (a b : ℚ) : pymax a b = max a b := (max_def a b).symm

/-- The explicit comparison form of `pymin` coincides with `min`. -/
theorem pymin_eq (a b : ℚ) : pymin a b = min a b := (min_def a b).symm

/-- Looking up a key right after setting it yields the value just set. -/
theorem dGet?_dSet (m : PriceDict) (k : String) (v : ℚ) :
    dGet? (dSet m k v) k = some v := by
  induction m with
  | nil => simp [dSet, dGet?]
  | cons e t ih =>
    by_cases h : e.1 = k
    · simp [dSet, dGet?, h]
    · simp [dSet, dGet?, h, ih]

/-- Setting a key absent from the dict appends the binding at the end. -/
theorem dSet_fresh (m : PriceDict) (k : String) (v : ℚ)
    (h : ∀ e ∈ m, e.1 ≠ k) : dSet m k v = m ++ [(k, v)] := by
  induction m with
  | nil => simp [dSet]
  | cons e t ih =>
    have he : e.1 ≠ k := h e (by simp)
    simp only [dSet, beq_iff_eq, if_neg he, List.cons_append, List.cons.injEq,
      true_and]
    exact ih (fun e' he' => h e' (by simp [he']))

/-- A key absent from the front of an append is found in the appended
singleton. -/
theorem dGet?_append_fresh (m : PriceDict) (k : String) (v : ℚ)
    (h : ∀ e ∈ m, e.1 ≠ k) : dGet? (m ++ [(k, v)]) k = some v := by
  induction m with
  | nil => simp [dGet?]
  | cons e t ih =>
    have he : e.1 ≠ k := h e (by simp)
    simp only [List.cons_append, dGet?, beq_iff_eq, if_neg he]
    exact ih (fun e' he' => h e' (by simp [he']))

/-- One slot iteration appends exactly one buy entry and one sell entry,
with the closed-form values `buySlot` / `sellSlot`, provided the period key
is still absent from both accumulators. -/
theorem stepSlot_eq (gl fl : Lookup) (now : Now) (accG accF : PriceDict)
    (hm : ℕ × ℕ)
    (hG : ∀ e ∈ accG, e.1 ≠ periodKey hm.1 hm.2)
    (hF : ∀ e ∈ accF, e.1 ≠ periodKey hm.1 hm.2) :
    stepSlot gl fl now (accG, accF) hm =
      (accG ++ [(periodKey hm.1 hm.2, buySlot gl now hm.1 hm.2)],
       accF ++ [(periodKey hm.1 hm.2, sellSlot gl fl now hm.1 hm.2)]) := by
  obtain ⟨hour, minute⟩ := hm
  simp only [stepSlot, buySlot, sellSlot]
  by_cases h1 : gl (dateToUse now hour minute, hour, minute) = [] <;>
    by_cases h2 : gl (now.date, hour, minute) = [] <;>
      by_cases h3 : fl (dateToUse now hour minute, hour, minute) = [] <;>
        by_cases h4 : fl (now.date, hour, minute) = [] <;>
          simp [h1, h2, h3, h4, dGet?_dSet, dSet_fresh _ _ _ hG,
            dSet_fresh _ _ _ hF, dGet?_append_fresh _ _ _ hG]

/-- Folding the slot loop over a list of slots with pairwise distinct period
keys, all fresh for the accumulators, appends the closed-form entries in
order. -/
theorem foldl_stepSlot (gl fl : Lookup) (now : Now) (ls : List (ℕ × ℕ)) :
    ∀ accG accF : PriceDict,
      (ls.map (fun x => periodKey x.1 x.2)).Nodup →
      (∀ x ∈ ls, (∀ e ∈ accG, e.1 ≠ periodKey x.1 x.2) ∧
        (∀ e ∈ accF, e.1 ≠ periodKey x.1 x.2)) →
      ls.foldl (stepSlot gl fl now) (accG, accF) =
        (accG ++ ls.map (fun x => (periodKey x.1 x.2, buySlot gl now x.1 x.2)),
         accF ++
           ls.map (fun x => (periodKey x.1 x.2, sellSlot gl fl now x.1 x.2))) := by
  induction ls with
  | nil => intro accG accF _ _; simp
  | cons hm tl ih =>
    intro accG accF hnd hfresh
    have hfhm := hfresh hm (by simp)
    rw [List.foldl_cons, stepSlot_eq gl fl now accG accF hm hfhm.1 hfhm.2]
    have hnd' := hnd
    rw [List.map_cons, List.nodup_cons] at hnd'
    rw [ih (accG ++ [(periodKey hm.1 hm.2, buySlot gl now hm.1 hm.2)])
        (accF ++ [(periodKey hm.1 hm.2, sellSlot gl fl now hm.1 hm.2)])
        hnd'.2 ?_]
    · simp
    · intro x hx
      have hkey : periodKey hm.1 hm.2 ≠ periodKey x.1 x.2 := by
        intro hcontra
        exact hnd'.1 (hcontra ▸ List.mem_map_of_mem _ hx)
      constructor
      · intro e he
        rcases List.mem_append.mp he with h | h
        · exact (hfresh x (by simp [hx])).1 e h
        · simp only [List.mem_singleton] at h
          simp [h, hkey]
      · intro e he
        rcases List.mem_append.mp he with h | h
        · exact (hfresh x (by simp [hx])).2 e h
        · simp only [List.mem_singleton] at h
          simp [h, hkey]

/-- The rolling builder produces, in iteration order, exactly one buy entry
and one sell entry per slot, with the closed-form values. -/
theorem build_rolling_eq (gl fl : Lookup) (now : Now) :
    _build_rolling_24h_tariff gl fl now =
      (allSlots.map (fun x => (periodKey x.1 x.2, buySlot gl now x.1 x.2)),
       allSlots.map (fun x => (periodKey x.1 x.2, sellSlot gl fl now x.1 x.2))) := by
  have hnd : (allSlots.map (fun x => periodKey x.1 x.2)).Nodup := by decide
  simpa using foldl_stepSlot gl fl now allSlots [] [] hnd (by simp)

/-- Every buy entry is non-negative (the `max(0, ...)` clamp, or the zero
default). -/
theorem buySlot_nonneg (gl : Lookup) (now : Now) (hour minute : ℕ) :
    0 ≤ buySlot gl now hour minute := by
  simp only [buySlot]
  split_ifs <;> simp [pymax_eq, le_max_iff]

/-- Every sell entry is non-negative. -/
theorem sellSlot_nonneg (gl fl : Lookup) (now : Now) (hour minute : ℕ) :
    0 ≤ sellSlot gl fl now hour minute := by
  simp only [sellSlot]
  split_ifs <;>
    simp [pymin_eq, pymax_eq, le_min_iff, le_max_iff, buySlot_nonneg]

/-- Every sell entry is at most the buy entry of the same slot. -/
theorem sellSlot_le_buySlot (gl fl : Lookup) (now : Now) (hour minute : ℕ) :
    sellSlot gl fl now hour minute ≤ buySlot gl now hour minute := by
  simp only [sellSlot]
  split_ifs <;> simp [pymin_eq, min_le_right, buySlot_nonneg]

/-- A point whose price selection fails is reported as a raised-and-caught
error regardless of its other fields. -/
theorem processPoint_err_of_selectCents (ft : String) (p : AmberPoint)
    (h : selectCents ft p = none) : processPoint ft p = .err := by
  rcases htt : p.nemTime with _ | t <;> simp [processPoint, htt, h]

/-- A point whose processing raises (and is caught) contributes nothing:
removing it from the batch leaves the lookups unchanged. -/
theorem buildLookups_skip (ft : String) (p : AmberPoint)
    (h : processPoint ft p = .err) (pts₁ pts₂ : List AmberPoint) :
    buildLookups ft (pts₁ ++ p :: pts₂) = buildLookups ft (pts₁ ++ pts₂) := by
  unfold buildLookups
  rw [List.foldl_append, List.foldl_append, List.foldl_cons]
  have : applyPoint ft (pts₁.foldl (applyPoint ft) (fun _ => [], fun _ => [])) p
      = pts₁.foldl (applyPoint ft) (fun _ => [], fun _ => []) := by
    simp [applyPoint, h]
  rw [this]

/-- Folding a batch in which every point raises leaves the accumulator
untouched. -/
theorem foldl_applyPoint_all_err (ft : String) (pts : List AmberPoint)
    (h : ∀ p ∈ pts, processPoint ft p = .err) (acc : Lookup × Lookup) :
    pts.foldl (applyPoint ft) acc = acc := by
  induction pts generalizing acc with
  | nil => rfl
  | cons p tl ih =>
    rw [List.foldl_cons]
    have hp : applyPoint ft acc p = acc := by
      simp [applyPoint, h p (by simp)]
    rw [hp]
    exact ih (fun q hq => h q (by simp [hq])) acc

/-- C1: for every slot in the tariff produced by the rolling builder, the
buy price is nonnegative, the sell price is nonnegative and at most the buy
price of the same slot; and whenever the sell bucket is non-empty the sell
price is literally `min (max 0 (rounded average)) buy`, i.e. the
sell-at-most-buy cap is applied last, after averaging and after the
clamp to zero. -/
theorem c1_slot_invariants (gl fl : Lookup) (now : Now) (hour minute : ℕ)
    (hmem : (hour, minute) ∈ allSlots) :
    (periodKey hour minute, buySlot gl now hour minute) ∈
        (_build_rolling_24h_tariff gl fl now).1 ∧
    (periodKey hour minute, sellSlot gl fl now hour minute) ∈
        (_build_rolling_24h_tariff gl fl now).2 ∧
    0 ≤ buySlot gl now hour minute ∧
    0 ≤ sellSlot gl fl now hour minute ∧
    sellSlot gl fl now hour minute ≤ buySlot gl now hour minute ∧
    (fl (dateToUse now hour minute, hour, minute) ≠ [] →
      sellSlot gl fl now hour minute =
        min (max 0 (_round_price
            (avgList (fl (dateToUse now hour minute, hour, minute)))))
          (buySlot gl now hour minute)) := by
  refine ⟨?_, ?_, buySlot_nonneg gl now hour minute,
    sellSlot_nonneg gl fl now hour minute,
    sellSlot_le_buySlot gl fl now hour minute, ?_⟩
  · rw [build_rolling_eq]
    exact List.mem_map_of_mem
      (fun x => (periodKey x.1 x.2, buySlot gl now x.1 x.2)) hmem
  · rw [build_rolling_eq]
    exact List.mem_map_of_mem
      (fun x => (periodKey x.1 x.2, sellSlot gl fl now x.1 x.2)) hmem
  · intro hne
    simp [sellSlot, hne, pymin_eq, pymax_eq]

/-- Witness: the slot invariants hold at a concrete slot of a concrete
build. -/
theorem c1_slot_invariants_witness :
    ((17, 30) ∈ allSlots) ∧
    0 ≤ buySlot c1gl ⟨0, 0, 0⟩ 17 30 ∧
    0 ≤ sellSlot c1gl c1fl ⟨0, 0, 0⟩ 17 30 ∧
    sellSlot c1gl c1fl ⟨0, 0, 0⟩ 17 30 ≤ buySlot c1gl ⟨0, 0, 0⟩ 17 30 :=
  ⟨by decide,
   (c1_slot_invariants c1gl c1fl ⟨0, 0, 0⟩ 17 30 (by decide)).2.2.1,
   (c1_slot_invariants c1gl c1fl ⟨0, 0, 0⟩ 17 30 (by decide)).2.2.2.1,
   (c1_slot_invariants c1gl c1fl ⟨0, 0, 0⟩ 17 30 (by decide)).2.2.2.2.1⟩

/-- C2: whenever the conversion returns a tariff, its buy-rate map and
sell-rate map contain exactly the 48 period keys (one per `(hour, half)`
combination, no duplicates), and a slot whose buy and sell buckets are all
empty is still emitted, with price 0. -/
theorem c2_completeness (ft : String) (pts : List AmberPoint) (now : Now)
    (t : TeslaTariff)
    (hconv : convert_amber_to_tesla_tariff pts ft now = some t) :
    t.buyRates.map Prod.fst = allSlots.map (fun x => periodKey x.1 x.2) ∧
    t.sellRates.map Prod.fst = allSlots.map (fun x => periodKey x.1 x.2) ∧
    t.buyRates.length = 48 ∧
    t.sellRates.length = 48 ∧
    (allSlots.map (fun x => periodKey x.1 x.2)).Nodup ∧
    (∀ hour ∈ List.range 24, (hour, 0) ∈ allSlots ∧ (hour, 30) ∈ allSlots) ∧
    (∀ hour minute : ℕ, (hour, minute) ∈ allSlots →
      (buildLookups ft pts).1 (dateToUse now hour minute, hour, minute) = [] →
      (buildLookups ft pts).1 (now.date, hour, minute) = [] →
      (buildLookups ft pts).2 (dateToUse now hour minute, hour, minute) = [] →
      (buildLookups ft pts).2 (now.date, hour, minute) = [] →
      (periodKey hour minute, (0 : ℚ)) ∈ t.buyRates ∧
      (periodKey hour minute, (0 : ℚ)) ∈ t.sellRates) := by
  simp only [convert_amber_to_tesla_tariff] at hconv
  split at hconv
  · exact absurd hconv (by simp)
  · have ht : t = _build_tariff_structure
        (_build_rolling_24h_tariff (buildLookups ft pts).1
          (buildLookups ft pts).2 now).1
        (_build_rolling_24h_tariff (buildLookups ft pts).1
          (buildLookups ft pts).2 now).2 := by
      exact (Option.some.injEq _ _).mp hconv.symm
    subst ht
    rw [build_rolling_eq]
    refine ⟨by simp [_build_tariff_structure, List.map_map],
      by simp [_build_tariff_structure, List.map_map],
      by simp only [_build_tariff_structure, List.length_map]; decide,
      by simp only [_build_tariff_structure, List.length_map]; decide,
      by decide, by decide, ?_⟩
    intro hour minute hmem hb1 hb2 hs1 hs2
    constructor
    · have hval : buySlot (buildLookups ft pts).1 now hour minute = 0 := by
        simp [buySlot, hb1, hb2]
      simpa [_build_tariff_structure, hval] using
        List.mem_map_of_mem
          (fun x => (periodKey x.1 x.2,
            buySlot (buildLookups ft pts).1 now x.1 x.2)) hmem
    · have hval : sellSlot (buildLookups ft pts).1 (buildLookups ft pts).2
          now hour minute = 0 := by
        simp [sellSlot, hs1, hs2]
      simpa [_build_tariff_structure, hval] using
        List.mem_map_of_mem
          (fun x => (periodKey x.1 x.2,
            sellSlot (buildLookups ft pts).1 (buildLookups ft pts).2
              now x.1 x.2)) hmem

/-- Witness: a concrete conversion succeeds and carries 48 buy keys. -/
theorem c2_completeness_witness :
    convert_amber_to_tesla_tariff c2pts "predicted" ⟨0, 0, 0⟩ = some c2t ∧
    c2t.buyRates.length = 48 ∧ c2t.sellRates.length = 48 :=
  ⟨by with_unfolding_all decide,
   (c2_completeness "predicted" c2pts ⟨0, 0, 0⟩ c2t
     (by with_unfolding_all decide)).2.2.1,
   (c2_completeness "predicted" c2pts ⟨0, 0, 0⟩ c2t
     (by with_unfolding_all decide)).2.2.2.1⟩

/-- C3: the builder selects tomorrow's bucket exactly for the slots strictly
earlier than `(current_hour, current_half)` in wall-clock order, and today's
bucket otherwise — in particular the slot equal to the current one uses
today. With `now = 12:00` and distinctly-valued synthetic buckets, the slots
before 12:00 carry tomorrow's value and the slots from 12:00 on carry
today's. -/
theorem c3_rolling_window (now : Now) (hour minute : ℕ) :
    (dateToUse now hour minute = now.date + 1 ↔
      (hour < now.hour ∨ (hour = now.hour ∧ minute < current_minute now))) ∧
    dateToUse now now.hour (current_minute now) = now.date ∧
    ((hour, minute) ∈ allSlots →
      (hour < 12 → dateToUse ⟨0, 12, 0⟩ hour minute = 1) ∧
      (12 ≤ hour → dateToUse ⟨0, 12, 0⟩ hour minute = 0) ∧
      (periodKey hour minute, if hour < 12 then (2 : ℚ) else 3) ∈
        (_build_rolling_24h_tariff c3gl c3fl ⟨0, 12, 0⟩).1) := by
  refine ⟨?_, ?_, ?_⟩
  · unfold dateToUse
    split_ifs with h
    · simp [h]
    · simp [h]
  · simp [dateToUse]
  · intro hmem
    refine ⟨?_, ?_, ?_⟩
    · intro h12
      simp [dateToUse, h12]
    · intro h12
      have h1 : ¬ hour < 12 := Nat.not_lt.mpr h12
      simp [dateToUse, current_minute, h1]
    · have hval : ∀ x ∈ allSlots,
          buySlot c3gl ⟨0, 12, 0⟩ x.1 x.2 = if x.1 < 12 then (2 : ℚ) else 3 := by
        with_unfolding_all decide
      rw [build_rolling_eq, ← hval (hour, minute) hmem]
      exact List.mem_map_of_mem
        (fun x => (periodKey x.1 x.2, buySlot c3gl ⟨0, 12, 0⟩ x.1 x.2)) hmem

/-- Witness: the rolling-window characterisation at the concrete slot
`(5, 30)` of the synthetic build. -/
theorem c3_rolling_window_witness :
    ((5, 30) ∈ allSlots) ∧
    ((5 : ℕ) < 12 → dateToUse ⟨0, 12, 0⟩ 5 30 = 1) ∧
    ((12 : ℕ) ≤ 5 → dateToUse ⟨0, 12, 0⟩ 5 30 = 0) ∧
    (periodKey 5 30, if (5 : ℕ) < 12 then (2 : ℚ) else 3) ∈
      (_build_rolling_24h_tariff c3gl c3fl ⟨0, 12, 0⟩).1 :=
  ⟨by decide, ((c3_rolling_window ⟨0, 12, 0⟩ 5 30).2.2 (by decide)).1,
   ((c3_rolling_window ⟨0, 12, 0⟩ 5 30).2.2 (by decide)).2.1,
   ((c3_rolling_window ⟨0, 12, 0⟩ 5 30).2.2 (by decide)).2.2⟩

/-- C4: every contributing point is bucketed by its interval start,
computed per point as its end timestamp minus its own duration; a point
ending 18:00 with duration 5 lands in `(17, 30)` (start 17:55), and one
ending 18:00 with duration 30 also lands in `(17, 30)` (start 17:30). -/
theorem c4_interval_start_bucketing (ft : String) (p : AmberPoint) (t : ℤ)
    (k : LKey) (v : ℚ) (hts : p.nemTime = some t)
    (hout : processPoint ft p = .toGeneral k v ∨
      processPoint ft p = .toFeedIn k v) :
    k = bucketKey (t - p.duration) ∧
    processPoint "predicted" c4pt5 = .toGeneral (0, 17, 30) (2/5) ∧
    processPoint "predicted" c4pt30 = .toGeneral (0, 17, 30) (2/5) ∧
    bucketKey (1080 - 5) = (0, 17, 30) ∧
    bucketKey (1080 - 30) = (0, 17, 30) := by
  refine ⟨?_, by with_unfolding_all decide, by with_unfolding_all decide,
    by decide, by decide⟩
  simp only [processPoint, hts] at hout
  rcases hsel : selectCents ft p with _ | cents
  · simp [hsel] at hout
  · simp only [hsel] at hout
    split_ifs at hout <;> rcases hout with h | h <;> simp_all

/-- Witness: the bucketing law applied to the concrete duration-5 point. -/
theorem c4_interval_start_bucketing_witness :
    c4pt5.nemTime = some 1080 ∧
    (processPoint "predicted" c4pt5 = .toGeneral (0, 17, 30) (2/5) ∨
      processPoint "predicted" c4pt5 = .toFeedIn (0, 17, 30) (2/5)) ∧
    (0, 17, 30) = bucketKey (1080 - c4pt5.duration) :=
  ⟨rfl, Or.inl (by with_unfolding_all decide),
   (c4_interval_start_bucketing "predicted" c4pt5 1080 (0, 17, 30) (2/5) rfl
     (Or.inl (by with_unfolding_all decide))).1⟩

/-- C5 counterexample: a batch containing a ForecastInterval point whose
variant map lacks the requested key still produces a tariff — the raised
error is caught by the per-point handler, the point is skipped, and the
conversion continues; it does not fail as the claim states. -/
theorem c5_missing_variant_counterexample :
    convert_amber_to_tesla_tariff [c5good, c5bad] "predicted" ⟨0, 0, 0⟩ ≠ none ∧
    processPoint "predicted" c5bad = .err := by
  constructor
  · with_unfolding_all decide
  · with_unfolding_all decide

/-- C5 (amended): a ForecastInterval point whose variant map lacks the
requested key raises a per-point error that the per-point handler catches:
the point is skipped (so it never falls back to its raw actual price, and
contributes to no bucket), processing of the remaining points continues,
and any non-empty batch still produces a tariff. -/
theorem c5_missing_variant_skipped (ft : String) (p : AmberPoint)
    (mp : List (String × ℚ)) (hty : p.type = "ForecastInterval")
    (hap : p.advancedPrice = .dict mp) (hne : mp ≠ [])
    (hmiss : dGet? mp ft = none) :
    processPoint ft p = .err ∧
    (∀ pts₁ pts₂, buildLookups ft (pts₁ ++ p :: pts₂) =
      buildLookups ft (pts₁ ++ pts₂)) ∧
    (∀ pts now, pts ≠ [] →
      (convert_amber_to_tesla_tariff pts ft now).isSome = true) := by
  have hsel : selectCents ft p = none := by
    simp [selectCents, hty, hap, AdvancedPrice.falsy, List.isEmpty_iff, hne,
      hmiss]
  have herr : processPoint ft p = .err := processPoint_err_of_selectCents ft p hsel
  refine ⟨herr, fun pts₁ pts₂ => buildLookups_skip ft p herr pts₁ pts₂, ?_⟩
  intro pts now hpts
  simp [convert_amber_to_tesla_tariff, hpts]

/-- Witness: the amended missing-variant behaviour at the concrete bad
point. -/
theorem c5_missing_variant_skipped_witness :
    c5bad.type = "ForecastInterval" ∧
    c5bad.advancedPrice = .dict [("low", 10)] ∧
    processPoint "predicted" c5bad = .err ∧
    (convert_amber_to_tesla_tariff [c5good, c5bad] "predicted"
      ⟨0, 0, 0⟩).isSome = true :=
  ⟨rfl, rfl,
   (c5_missing_variant_skipped "predicted" c5bad [("low", 10)] rfl rfl
     (by decide) (by decide)).1,
   (c5_missing_variant_skipped "predicted" c5bad [("low", 10)] rfl rfl
     (by decide) (by decide)).2.2 [c5good, c5bad] ⟨0, 0, 0⟩ (by decide)⟩

/-- C6 counterexample: a non-empty batch in which every point is skipped as
malformed does not fail — the conversion emits the zero-filled 48-slot
document, contradicting the claim that it returns no tariff in that case. -/
theorem c6_all_skipped_counterexample :
    processPoint "predicted" c6bad = .err ∧
    convert_amber_to_tesla_tariff [c6bad] "predicted" ⟨0, 0, 0⟩ =
      some (_build_tariff_structure zeroRates zeroRates) ∧
    convert_amber_to_tesla_tariff [c6bad] "predicted" ⟨0, 0, 0⟩ ≠ none := by
  refine ⟨by decide, by with_unfolding_all decide, by with_unfolding_all decide⟩

/-- C6 (amended): an empty input forecast makes the conversion fail with no
tariff; but a non-empty batch in which every point is skipped does not fail
— it produces the zero-filled 48-slot document. -/
theorem c6_batch_error_behaviour (ft : String) (now : Now)
    (pts : List AmberPoint) (hne : pts ≠ [])
    (hall : ∀ p ∈ pts, processPoint ft p = .err) :
    convert_amber_to_tesla_tariff [] ft now = none ∧
    convert_amber_to_tesla_tariff pts ft now =
      some (_build_tariff_structure zeroRates zeroRates) := by
  constructor
  · rfl
  · have hl : buildLookups ft pts = (fun _ => [], fun _ => []) :=
      foldl_applyPoint_all_err ft pts hall _
    have hb : _build_rolling_24h_tariff (fun _ => ([] : List ℚ))
        (fun _ => []) now = (zeroRates, zeroRates) := by
      rw [build_rolling_eq]
      simp [zeroRates, buySlot, sellSlot]
    simp [convert_amber_to_tesla_tariff, hne, hl, hb]

/-- Witness: the amended batch-error behaviour at the concrete all-skipped
batch. -/
theorem c6_batch_error_behaviour_witness :
    (([c6bad] : List AmberPoint) ≠ []) ∧
    convert_amber_to_tesla_tariff [] "predicted" ⟨0, 0, 0⟩ = none ∧
    convert_amber_to_tesla_tariff [c6bad] "predicted" ⟨0, 0, 0⟩ =
      some (_build_tariff_structure zeroRates zeroRates) :=
  ⟨by decide,
   (c6_batch_error_behaviour "predicted" ⟨0, 0, 0⟩ [c6bad] (by decide)
     (by decide)).1,
   (c6_batch_error_behaviour "predicted" ⟨0, 0, 0⟩ [c6bad] (by decide)
     (by decide)).2⟩

/-- C7 counterexample: with a bucket whose rounded mean is `-1`, the slot's
buy price in the document is `0`, not the rounded mean — the claim omits
the final clamp to `≥ 0`. -/
theorem c7_negative_mean_counterexample :
    dGet? (_build_rolling_24h_tariff c7gl c7fl ⟨0, 0, 0⟩).1 (periodKey 5 0) =
      some 0 ∧
    _round_price (avgList (c7gl (dateToUse ⟨0, 0, 0⟩ 5 0, 5, 0))) = -1 ∧
    ((0 : ℚ) ≠ -1) := by
  refine ⟨by with_unfolding_all decide, by with_unfolding_all decide, by decide⟩

/-- C7 (amended): the slot's buy price is `max 0` of the rounded arithmetic
mean of the selected date's bucket; if that bucket is empty the builder
falls back to today's bucket for the same slot (again `max 0` of the
rounded mean); if that is also empty the buy price is 0. Six samples
`0.10, 0.12, 0.11, 0.13, 0.09, 0.15` average to `0.1167` after rounding. -/
theorem c7_buy_price_rule (gl fl : Lookup) (now : Now) (hour minute : ℕ)
    (hmem : (hour, minute) ∈ allSlots) :
    (gl (dateToUse now hour minute, hour, minute) ≠ [] →
      (periodKey hour minute,
        max 0 (_round_price
          (avgList (gl (dateToUse now hour minute, hour, minute))))) ∈
        (_build_rolling_24h_tariff gl fl now).1) ∧
    (gl (dateToUse now hour minute, hour, minute) = [] →
      gl (now.date, hour, minute) ≠ [] →
      (periodKey hour minute,
        max 0 (_round_price (avgList (gl (now.date, hour, minute))))) ∈
        (_build_rolling_24h_tariff gl fl now).1) ∧
    (gl (dateToUse now hour minute, hour, minute) = [] →
      gl (now.date, hour, minute) = [] →
      (periodKey hour minute, (0 : ℚ)) ∈
        (_build_rolling_24h_tariff gl fl now).1) ∧
    _round_price (avgList [1/10, 12/100, 11/100, 13/100, 9/100, 15/100]) =
      1167/10000 := by
  have hmemb : ∀ q, buySlot gl now hour minute = q →
      (periodKey hour minute, q) ∈ (_build_rolling_24h_tariff gl fl now).1 := by
    intro q hq
    rw [build_rolling_eq, ← hq]
    exact List.mem_map_of_mem
      (fun x => (periodKey x.1 x.2, buySlot gl now x.1 x.2)) hmem
  have havg : _round_price
      (avgList [1/10, 12/100, 11/100, 13/100, 9/100, 15/100]) = 1167/10000 := by
    have h1 : avgList [1/10, 12/100, 11/100, 13/100, 9/100, 15/100] = 7/60 := by
      simp [avgList]
      norm_num
    have h2 : ((7 : ℚ)/60) * 10000 = 3500/3 := by norm_num
    have h3 : Int.floor ((3500 : ℚ)/3) = 1166 := by
      rw [Int.floor_eq_iff]
      norm_num
    rw [_round_price, h1, h2, pyRoundInt, h3]
    norm_num
  refine ⟨?_, ?_, ?_, havg⟩
  · intro h1
    exact hmemb _ (by simp [buySlot, h1, pymax_eq])
  · intro h1 h2
    exact hmemb _ (by simp [buySlot, h1, h2, pymax_eq])
  · intro h1 h2
    exact hmemb _ (by simp [buySlot, h1, h2])

/-- Witness: the buy-price rule at a concrete slot holding the six
averaging samples. -/
theorem c7_buy_price_rule_witness :
    ((3, 0) ∈ allSlots) ∧
    c7wgl (dateToUse ⟨0, 0, 0⟩ 3 0, 3, 0) ≠ [] ∧
    (periodKey 3 0,
      max 0 (_round_price (avgList (c7wgl (dateToUse ⟨0, 0, 0⟩ 3 0, 3, 0))))) ∈
      (_build_rolling_24h_tariff c7wgl c7fl ⟨0, 0, 0⟩).1 :=
  ⟨by decide, by with_unfolding_all decide,
   (c7_buy_price_rule c7wgl c7fl ⟨0, 0, 0⟩ 3 0 (by decide)).1
     (by with_unfolding_all decide)⟩

/-- C8 counterexample: with identical caller-supplied arguments (the same
forecast batch and forecast type), the conversion output changes with the
wall-clock value read internally by `_build_rolling_24h_tariff` — the
output is not a function of the caller's arguments, because `now` is read
from a live clock inside the conversion rather than supplied by the
caller. -/
theorem c8_internal_clock_counterexample :
    convert_amber_to_tesla_tariff c8pts "predicted" ⟨0, 0, 0⟩ ≠
      convert_amber_to_tesla_tariff c8pts "predicted" ⟨0, 12, 0⟩ := by
  with_unfolding_all decide

/-- C8 (amended): the conversion reads `now` internally from the live clock
(modelled by the explicit `clockNow` parameter); holding that internally
read value fixed, the conversion is a deterministic pure function of
`(forecast_points, forecast_type, now)` — two runs with identical inputs
and identical clock reads agree — but identical caller-supplied arguments
alone do not determine the output. -/
theorem c8_determinism (ft : String) (pts pts' : List AmberPoint)
    (n n' : Now) (hp : pts = pts') (hn : n = n') :
    convert_amber_to_tesla_tariff pts ft n =
      convert_amber_to_tesla_tariff pts' ft n' ∧
    convert_amber_to_tesla_tariff c8pts "predicted" ⟨0, 0, 0⟩ ≠
      convert_amber_to_tesla_tariff c8pts "predicted" ⟨0, 12, 0⟩ := by
  subst hp
  subst hn
  exact ⟨rfl, by with_unfolding_all decide⟩

/-- Witness: determinism applied at concrete equal inputs. -/
theorem c8_determinism_witness :
    convert_amber_to_tesla_tariff c8pts "predicted" ⟨0, 0, 0⟩ =
      convert_amber_to_tesla_tariff c8pts "predicted" ⟨0, 0, 0⟩ :=
  (c8_determinism "predicted" c8pts c8pts ⟨0, 0, 0⟩ ⟨0, 0, 0⟩ rfl rfl).1

/-- C9 counterexample: a point with a non-positive duration is not
rejected — it is processed normally and contributes to the bucket at its
unshifted end time, contradicting the claim that such points are rejected
and contribute to no bucket. -/
theorem c9_nonpositive_duration_counterexample :
    c9pt.duration ≤ 0 ∧
    processPoint "predicted" c9pt ≠ .err ∧
    (buildLookups "predicted" [c9pt]).1 (0, 18, 0) = [2/5] := by
  refine ⟨by decide, by with_unfolding_all decide, by with_unfolding_all decide⟩

/-- C9 (amended): a point whose timestamp fails to parse raises a per-point
error that is caught, the point contributes to no bucket and processing
continues; but a non-positive duration is not validated — such a point is
processed like any other, bucketed at its end timestamp minus its own
duration. -/
theorem c9_per_point_errors (ft : String) (p : AmberPoint) :
    (p.nemTime = none → processPoint ft p = .err) ∧
    (processPoint ft p = .err → ∀ pts₁ pts₂,
      buildLookups ft (pts₁ ++ p :: pts₂) = buildLookups ft (pts₁ ++ pts₂)) ∧
    (∀ t : ℤ, p.nemTime = some t → p.type ≠ "ForecastInterval" →
      p.channelType = "general" →
      processPoint ft p = .toGeneral (bucketKey (t - p.duration))
        (_round_price (p.perKwh / 100))) := by
  refine ⟨?_, ?_, ?_⟩
  · intro h
    simp [processPoint, h]
  · intro h pts₁ pts₂
    exact buildLookups_skip ft p h pts₁ pts₂
  · intro t ht hty hch
    simp [processPoint, ht, selectCents, hty, hch]

/-- Witness: the per-point error rules at the concrete zero-duration
point. -/
theorem c9_per_point_errors_witness :
    c9pt.nemTime = some 1080 ∧
    c9pt.duration = 0 ∧
    processPoint "predicted" c9pt =
      .toGeneral (bucketKey (1080 - c9pt.duration))
        (_round_price (c9pt.perKwh / 100)) :=
  ⟨rfl, rfl,
   (c9_per_point_errors "predicted" c9pt).2.2 1080 rfl (by decide) rfl⟩

/-- C10: a ForecastInterval point whose `advancedPrice` is present but
falsy — the number 0 or an empty mapping — is treated exactly like a
missing `advancedPrice`: its processing raises, the per-point handler
catches it, and the point contributes to no bucket, so a legitimate
zero-cent forecast price never reaches the lookups. -/
theorem c10_falsy_advanced_price (ft : String) (p : AmberPoint)
    (hty : p.type = "ForecastInterval")
    (hfalsy : p.advancedPrice = .num 0 ∨ p.advancedPrice = .dict []) :
    processPoint ft p = .err ∧
    processPoint ft { p with advancedPrice := .missing } = .err ∧
    (∀ pts₁ pts₂, buildLookups ft (pts₁ ++ p :: pts₂) =
      buildLookups ft (pts₁ ++ pts₂)) := by
  have hsel : selectCents ft p = none := by
    rcases hfalsy with h | h <;> simp [selectCents, hty, h, AdvancedPrice.falsy]
  have herr : processPoint ft p = .err := processPoint_err_of_selectCents ft p hsel
  have hsel' : selectCents ft { p with advancedPrice := .missing } = none := by
    simp [selectCents, hty, AdvancedPrice.falsy]
  have herr' : processPoint ft { p with advancedPrice := .missing } = .err :=
    processPoint_err_of_selectCents ft _ hsel'
  exact ⟨herr, herr', fun pts₁ pts₂ => buildLookups_skip ft p herr pts₁ pts₂⟩

/-- Witness: the falsy-advancedPrice behaviour at the concrete zero-price
point. -/
theorem c10_falsy_advanced_price_witness :
    c10pt.type = "ForecastInterval" ∧
    (c10pt.advancedPrice = .num 0 ∨ c10pt.advancedPrice = .dict []) ∧
    processPoint "predicted" c10pt = .err :=
  ⟨rfl, Or.inl rfl,
   (c10_falsy_advanced_price "predicted" c10pt rfl (Or.inl rfl)).1⟩

end TeslaAmberSync
